import Mathlib

/-!
Shallow embedding of the browser client's real-time session layer
(`static/js/websocket-handler.js`, `static/js/audio-manager.js`,
`static/js/survey-manager.js`, `static/js/file-upload-manager.js`),
together with theorems settling the specification claims about it.

Modelling conventions:
* JavaScript objects become Lean structures; the DOM-rendering side effects
  (class toggles, innerHTML writes, alerts, debug logging) are either dropped
  or, where a claim mentions them, recorded in explicit log fields.
* The underlying `WebSocket` is modelled by explicit fields
  (`wsExists`, `wsOpen`, `wsCreated`) plus a per-message success oracle
  `ok : Msg → Bool` standing for "neither `JSON.stringify` nor `ws.send`
  throws on this message".
* Message payloads are abstracted as strings: the claims about the transport
  concern only ordering and multiplicity, never payload contents.
-/

namespace WebSocketHandler

/-- Outbound message payload, abstracted. -/
abbrev Msg := String

/-- State of a `WebSocketHandler` instance (constructor fields of the class),
plus a transmission log `sent` recording every successful `ws.send`, and a
counter `wsCreated` of `new WebSocket(...)` constructions. -/
structure State where
  isConnecting : Bool
  /-- `this.ws !== null` -/
  wsExists : Bool
  /-- `this.ws.readyState === WebSocket.OPEN` -/
  wsOpen : Bool
  /-- number of times `new WebSocket('ws://localhost:8888')` has run -/
  wsCreated : Nat
  reconnectAttempts : Nat
  messageQueue : List Msg
  /-- log of messages handed to `this.ws.send`, in transmission order -/
  sent : List Msg
  deriving Repr, DecidableEq

/-- The state built by the constructor (before the `this.connect()` call). -/
def initialState : State :=
  { isConnecting := false, wsExists := false, wsOpen := false, wsCreated := 0,
    reconnectAttempts := 0, messageQueue := [], sent := [] }

def maxReconnectAttempts : Nat := 5

/-- `this.reconnectDelay = 3000` (milliseconds), as an exact rational. -/
def reconnectDelay : ℚ := 3000

/-- The backoff growth factor `1.5`; exact in binary floating point, so the
rational `3/2` is a faithful model for the exponents that can occur. -/
def growthFactor : ℚ := 3 / 2

/-- `connect()`: returns unchanged if `this.isConnecting`; otherwise sets the
flag and constructs a fresh `WebSocket`, replacing `this.ws` (the successful
construction path; a throwing constructor would go to `handleReconnect`). -/
def connect (st : State) : State :=
  if st.isConnecting then st
  else { st with isConnecting := true, wsExists := true, wsOpen := false,
                 wsCreated := st.wsCreated + 1 }

/-- `sendMessage(message)`: if the socket is absent or not OPEN, push the
message onto `messageQueue`; otherwise attempt `ws.send` — on success append
to the transmission log, on a thrown error push the message onto
`messageQueue` (the catch block's `this.messageQueue.push(message)`). -/
def sendMessage (ok : Msg → Bool) (st : State) (m : Msg) : State :=
  if !(st.wsExists && st.wsOpen) then
    { st with messageQueue := st.messageQueue ++ [m] }
  else if ok m then
    { st with sent := st.sent ++ [m] }
  else
    { st with messageQueue := st.messageQueue ++ [m] }

/-- The `onopen` drain loop `while (queue.length > 0) { shift; sendMessage }`,
unrolled with explicit fuel.  With every send succeeding, fuel equal to the
queue length reproduces the JavaScript loop exactly; with persistent send
failure the JavaScript loop would re-push and retry without bound. -/
def drainLoop (ok : Msg → Bool) : Nat → State → State
  | 0, st => st
  | fuel + 1, st =>
    match st.messageQueue with
    | [] => st
    | m :: rest => drainLoop ok fuel (sendMessage ok { st with messageQueue := rest } m)

/-- The `ws.onopen` handler: clear `isConnecting`, reset the attempt counter,
then drain the queued messages in FIFO order (the socket is OPEN while the
handler runs). -/
def handleOpen (ok : Msg → Bool) (st : State) : State :=
  let st' := { st with isConnecting := false, wsOpen := true, reconnectAttempts := 0 }
  drainLoop ok st'.messageQueue.length st'

/-- `handleReconnect()`: if the attempt counter has reached the cap, give up
(no retry scheduled, counter unchanged); otherwise increment the counter and
schedule a retry after `reconnectDelay * 1.5 ^ (attempts - 1)` ms.  Returns
the scheduled delay (`none` when no retry is scheduled) with the new state. -/
def handleReconnect (st : State) : Option ℚ × State :=
  if st.reconnectAttempts ≥ maxReconnectAttempts then
    (none, st)
  else
    (some (reconnectDelay * growthFactor ^ st.reconnectAttempts),
     { st with reconnectAttempts := st.reconnectAttempts + 1 })

end WebSocketHandler

namespace AudioManager

/-- State of the `AudioManager` instance.  `currentAudio` holds the index of
the `Audio` element stored in `this.currentAudio` (`none` for `null`); the
queue holds the audio URLs; `failLog` records the indices whose `play()`
rejected (each such rejection is reported via `debugLogger.error`). -/
structure State where
  audioQueue : List String
  currentAudioIndex : Int
  isPlaying : Bool
  currentAudio : Option Nat
  failLog : List Nat
  deriving Repr, DecidableEq

/-- The constructor state. -/
def initialState : State :=
  { audioQueue := [], currentAudioIndex := -1, isPlaying := false,
    currentAudio := none, failLog := [] }

/-- `addAudio(audioUrl, messageElement)` (successful path): construct the
`Audio` element, attach its listeners, and push it onto `this.audioQueue`.
No other field of the manager is touched — in particular nothing restarts
or resumes playback here. -/
def addAudio (st : State) (url : String) : State :=
  { st with audioQueue := st.audioQueue ++ [url] }

/-- Core of `playNext()`, indexed by the candidate position `i`
(`this.currentAudioIndex` after the `++`).  `ok i` says whether
`await audio.play()` succeeds for the element at index `i`.  If `i` is in
range: on success the manager is playing at `i`; on rejection the catch
block logs the error and recursively tries the next element.  Past the end,
the queue resets to idle (`currentAudioIndex = -1`, not playing). -/
def playNextGo (q : List String) (ok : Nat → Bool) (i : Nat)
    (log : List Nat) : Int × Bool × Option Nat × List Nat :=
  if i < q.length then
    if ok i then ((i : Int), true, some i, log)
    else playNextGo q ok (i + 1) (log ++ [i])
  else (-1, false, none, log)
  termination_by q.length - i

/-- `playNext()`: increment the cursor and try to play the element there,
skipping forward over rejections via `playNextGo`.  In every reachable state
`this.currentAudioIndex ≥ -1`, so `(currentAudioIndex + 1).toNat` coincides
with the incremented JavaScript cursor. -/
def playNext (ok : Nat → Bool) (st : State) : State :=
  let r := playNextGo st.audioQueue ok (st.currentAudioIndex + 1).toNat st.failLog
  { st with currentAudioIndex := r.1, isPlaying := r.2.1,
            currentAudio := r.2.2.1, failLog := r.2.2.2 }

/-- `pauseCurrent()`. -/
def pauseCurrent (st : State) : State :=
  if st.currentAudio.isSome then { st with isPlaying := false } else st

/-- `resumeCurrent()` (successful `play()` path). -/
def resumeCurrent (st : State) : State :=
  if st.currentAudio.isSome then { st with isPlaying := true } else st

/-- `togglePlayAll()`. -/
def togglePlayAll (ok : Nat → Bool) (st : State) : State :=
  if !st.isPlaying then
    if st.currentAudioIndex = -1 ∨
        st.currentAudioIndex ≥ (st.audioQueue.length : Int) - 1 then
      playNext ok { st with currentAudioIndex := -1 }
    else resumeCurrent st
  else pauseCurrent st

/-- `reset()`: pause everything, empty the queue, cursor back to `-1`. -/
def reset (st : State) : State :=
  { audioQueue := [], currentAudioIndex := -1, isPlaying := false,
    currentAudio := none, failLog := st.failLog }

end AudioManager

namespace SurveyManager

/-- A JavaScript value as stored in `this.surveyResponses[questionId]`:
a number (ratings), a string (text answers), or an array of selected option
values (multiple choice). -/
inductive JVal where
  | vNum (n : Int)
  | vStr (s : String)
  | vList (l : List String)
  deriving Repr, DecidableEq

/-- JavaScript truthiness test `!response` for a possibly-absent stored
response: `undefined`, the number `0` and the empty string are falsy;
arrays are always truthy. -/
def jsFalsy : Option JVal → Bool
  | none => true
  | some (.vNum n) => n == 0
  | some (.vStr s) => s == ""
  | some (.vList _) => false

/-- `response.length`: array length, string length, `undefined` on a number
(string length counts characters rather than UTF-16 code units, which agrees
for all but astral-plane characters). -/
def jsLen : JVal → Option Int
  | .vList l => some (l.length : Int)
  | .vStr s => some (s.length : Int)
  | .vNum _ => none

/-- Numeric coercion applied by `<`/`>` in the rating branch: numbers stand
for themselves, integer-literal strings coerce, everything else is `NaN`
(modelled `none`; a comparison against it is false). -/
def jsNum : JVal → Option Int
  | .vNum n => some n
  | .vStr s => s.toInt?
  | .vList _ => none

/-- A validation-config field used as a guard, e.g. `min_select && …`:
`undefined` and `0` are falsy and disable the corresponding check. -/
def truthyInt : Option Int → Option Int
  | some v => if v = 0 then none else some v
  | none => none

/-- JavaScript `a < b` where `a` may be `undefined`/`NaN` (then false). -/
def ltU : Option Int → Int → Bool
  | none, _ => false
  | some a, b => a < b

/-- JavaScript `a > b` where `a` may be `undefined`/`NaN` (then false). -/
def gtU : Option Int → Int → Bool
  | none, _ => false
  | some a, b => a > b

/-- The `question.validation` object. `min` and `max` are the rating bounds
(source field names kept). -/
structure QValidation where
  min_select : Option Int := none
  max_select : Option Int := none
  min_length : Option Int := none
  max_length : Option Int := none
  min : Option Int := none
  max : Option Int := none
  deriving Repr, DecidableEq

/-- A survey question.  `qtype` is the source's `type` field. -/
structure Question where
  question_id : String
  title : String
  qtype : String
  required : Bool
  validation : Option QValidation
  deriving Repr, DecidableEq

/-- A survey section. -/
structure Section where
  title : String
  questions : List Question
  deriving Repr, DecidableEq

/-- A survey as delivered in `survey_generated`. -/
structure Survey where
  title : String
  description : String
  sections : List Section
  deriving Repr, DecidableEq

/-- `this.surveyResponses`, an object keyed by question id. -/
abbrev Responses := List (String × JVal)

/-- Association-list lookup mirroring `responses[question.question_id]`. -/
def getResp : Responses → String → Option JVal
  | [], _ => none
  | (k, v) :: rest, qid => if k = qid then some v else getResp rest qid

/-- A sequential guard of `validateQuestion`: if the configured bound is
truthy and the (possibly undefined) value compares true against it, produce
the error message built from the bound. -/
def boundCheck (bound : Option Int) (value : Option Int)
    (cmp : Option Int → Int → Bool) (msg : Int → String) : Option String :=
  match truthyInt bound with
  | some v => if cmp value v then some (msg v) else none
  | none => none

/-- `validateQuestion(question)`: the required check fires on any falsy
stored response; a falsy response otherwise validates vacuously; then the
per-type bound checks run in source order, first failure winning. -/
def validateQuestion (responses : Responses) (q : Question) : Option String :=
  let response := getResp responses q.question_id
  if q.required && jsFalsy response then
    some (q.title ++ " 為必填項目")
  else if jsFalsy response then
    none
  else
    match response with
    | none => none
    | some r =>
      if q.qtype = "multiple_choice" then
        let selectedCount := jsLen r
        boundCheck (q.validation.bind QValidation.min_select) selectedCount ltU
            (fun v => q.title ++ " 至少選擇 " ++ toString v ++ " 項") <|>
        boundCheck (q.validation.bind QValidation.max_select) selectedCount gtU
            (fun v => q.title ++ " 最多選擇 " ++ toString v ++ " 項")
      else if q.qtype = "text" then
        let len := jsLen r
        boundCheck (q.validation.bind QValidation.min_length) len ltU
            (fun v => q.title ++ " 最少需要 " ++ toString v ++ " 個字") <|>
        boundCheck (q.validation.bind QValidation.max_length) len gtU
            (fun v => q.title ++ " 最多允許 " ++ toString v ++ " 個字")
      else if q.qtype = "rating" then
        let rv := jsNum r
        boundCheck (q.validation.bind QValidation.min) rv ltU
            (fun v => q.title ++ " 最小評分為 " ++ toString v) <|>
        boundCheck (q.validation.bind QValidation.max) rv gtU
            (fun v => q.title ++ " 最大評分為 " ++ toString v)
      else none

/-- `validateResponses()`: walk every question of every section collecting
the raised errors (the source shows each one next to its question and alerts
their deduplicated set; validity means no error was raised). -/
def validateResponses (survey : Survey) (responses : Responses) : List String :=
  survey.sections.flatMap fun sec => sec.questions.filterMap (validateQuestion responses)

/-- Outbound envelopes the survey manager can emit. -/
inductive OutMsg where
  | survey_generate (topic : String)
  | survey_submit (survey_id : Option String) (responses : Responses)
  | program_plan (survey_id : Option String)
  deriving Repr, DecidableEq

/-- The survey-session fields of `SurveyManager` (the DOM handles are
external).  `analysis` and `plan` payloads are abstracted as strings. -/
structure State where
  currentSurvey : Option Survey
  surveyResponses : Responses
  surveyId : Option String
  analysis : Option String
  plan : Option String
  currentStep : Nat
  deriving Repr, DecidableEq

/-- Constructor / `reset()` field values. -/
def initialState : State :=
  { currentSurvey := none, surveyResponses := [], surveyId := none,
    analysis := none, plan := none, currentStep := 1 }

/-- `reset()`. -/
def reset (_ : State) : State := initialState

/-- `submitSurvey()`: on any validation error, return before sending; with no
survey loaded, `this.currentSurvey.sections` throws and the catch block only
touches the DOM.  Only a fully valid response set emits `survey_submit`.
No session field is assigned on any path. -/
def submitSurvey (st : State) : State × Option OutMsg :=
  match st.currentSurvey with
  | none => (st, none)
  | some survey =>
    let errors := validateResponses survey st.surveyResponses
    if errors.isEmpty then
      (st, some (.survey_submit st.surveyId st.surveyResponses))
    else (st, none)

/-- An inbound frame as seen by `ws.onmessage` after `JSON.parse`, restricted
to the fields the survey workflow reads.  `ftype` is the wire field `type`. -/
structure Frame where
  ftype : Option String := none
  status : Option String := none
  error : Option String := none
  survey : Option Survey := none
  survey_id : Option String := none
  analysis : Option String := none
  plan : Option String := none
  deriving Repr, DecidableEq

/-- `handleSurveyGenerated(data)`: unconditionally assign `currentSurvey` and
`surveyId` from the frame.  When the frame carries a renderable survey,
`renderSurvey()` succeeds and `updateProgressBar(1)` resets the step; with no
survey payload `renderSurvey()` throws first, so the step is left alone and
the catch block only touches the DOM. -/
def handleSurveyGenerated (d : Frame) (st : State) : State :=
  match d.survey with
  | some sv => { st with currentSurvey := some sv, surveyId := d.survey_id, currentStep := 1 }
  | none => { st with currentSurvey := none, surveyId := d.survey_id }

/-- `handleAnalysisReceived(data)`: store the analysis; when rendering
succeeds the step advances and a `program_plan` request is auto-emitted;
a missing payload throws in `renderAnalysis()` before the send. -/
def handleAnalysisReceived (d : Frame) (st : State) : State × List OutMsg :=
  match d.analysis with
  | some a => ({ st with analysis := some a, currentStep := 2 }, [.program_plan st.surveyId])
  | none => ({ st with analysis := none }, [])

/-- `handlePlanReceived(data)`. -/
def handlePlanReceived (d : Frame) (st : State) : State :=
  match d.plan with
  | some p => { st with plan := some p, currentStep := 3 }
  | none => { st with plan := none }

/-- The `ws.onmessage` dispatch of `websocket-handler.js`, restricted to its
effect on the survey-session state: an `error` field short-circuits; the
recognized `type` values route to their handlers (`section_ready` only feeds
the DOM and the audio queue, `complete` re-enables the UI and resets the
survey manager, `error` only logs); anything else falls through to the
log-only `status` cases. -/
def onmessage (frame : Frame) (st : State) : State × List OutMsg :=
  if frame.error.isSome then (st, [])
  else
    match frame.ftype with
    | some "survey_generated" => (handleSurveyGenerated frame st, [])
    | some "survey_analysis" => handleAnalysisReceived frame st
    | some "program_plan" => (handlePlanReceived frame st, [])
    | some "section_ready" => (st, [])
    | some "complete" => (reset st, [])
    | some "error" => (st, [])
    | _ => (st, [])

end SurveyManager

namespace FileUploadManager

/-- A tracked file record (`this.files` map values): the spread upload
metadata plus the `processed` flag and `context` payload the manager adds. -/
structure FileRec where
  original_name : String
  size : Nat
  processed : Bool
  context : Option String
  deriving Repr, DecidableEq

/-- Upload-response metadata fed to `addFileToList`. -/
structure FileInfo where
  file_id : String
  original_name : String
  size : Nat
  deriving Repr, DecidableEq

/-- Registry state: `this.files` (a `Map`, modelled as an insertion-ordered
association list) and `this.activeFile`. -/
structure State where
  files : List (String × FileRec)
  activeFile : Option String
  deriving Repr, DecidableEq

/-- The constructor state. -/
def initialState : State := { files := [], activeFile := none }

/-- `Map.get`-style lookup. -/
def mapGet : List (String × FileRec) → String → Option FileRec
  | [], _ => none
  | (k, v) :: rest, fid => if k = fid then some v else mapGet rest fid

/-- `Map.set`: overwrite in place when the key exists, append otherwise. -/
def mapSet (l : List (String × FileRec)) (k : String) (v : FileRec) :
    List (String × FileRec) :=
  match l with
  | [] => [(k, v)]
  | (k', v') :: rest =>
    if k' = k then (k, v) :: rest else (k', v') :: mapSet rest k v

/-- `addFileToList(fileInfo)`: store the record with `processed: false` and
`context: null`. -/
def addFileToList (info : FileInfo) (st : State) : State :=
  let rec0 : FileRec :=
    { original_name := info.original_name, size := info.size,
      processed := false, context := none }
  { st with files := mapSet st.files info.file_id rec0 }

/-- `updateFileStatus(fileId, status, context = null)`: if the record exists,
set `processed` from the status string and overwrite `context` only when the
argument is truthy (JavaScript `if (context)`). -/
def updateFileStatus (fid : String) (status : String) (context : Option String)
    (st : State) : State :=
  match mapGet st.files fid with
  | none => st
  | some f =>
    let f' : FileRec :=
      { f with processed := status = "processed",
               context := match context with
                 | some c => if c = "" then f.context else some c
                 | none => f.context }
    { st with files := mapSet st.files fid f' }

/-- `toggleFileContext(fileId)`. -/
def toggleFileContext (fid : String) (st : State) : State :=
  { st with activeFile := if st.activeFile = some fid then none else some fid }

/-- `deleteFile(fileId)`: on a successful DELETE response, clear the active
selection if it pointed at the removed record and drop the record; a failed
request changes nothing. -/
def deleteFile (ok : Bool) (fid : String) (st : State) : State :=
  if ok then
    { files := st.files.filter fun p => p.1 ≠ fid,
      activeFile := if st.activeFile = some fid then none else st.activeFile }
  else st

/-- `getActiveFileContext()`. -/
def getActiveFileContext (st : State) : Option String :=
  match st.activeFile with
  | none => none
  | some fid =>
    match mapGet st.files fid with
    | some f => f.context
    | none => none

/-- The only in-repo caller of `updateFileStatus`: the websocket handler's
`handleFileProcessed`, which passes status `'processed'` and leaves the
context argument at its default `null`. -/
def handleFileProcessed (fid : String) (st : State) : State :=
  updateFileStatus fid "processed" none st

/-- Registry states reachable through the operations the repository actually
performs on a `FileUploadManager`. -/
inductive Reachable : State → Prop
  | init : Reachable initialState
  | add (info : FileInfo) {s : State} : Reachable s → Reachable (addFileToList info s)
  | processed (fid : String) {s : State} : Reachable s → Reachable (handleFileProcessed fid s)
  | toggle (fid : String) {s : State} : Reachable s → Reachable (toggleFileContext fid s)
  | delete (ok : Bool) (fid : String) {s : State} : Reachable s → Reachable (deleteFile ok fid s)

end FileUploadManager

/-! ### Playback-queue lemmas -/

namespace AudioManager

theorem playNextGo_stop (q : List String) (ok : Nat → Bool) (i : Nat)
    (log : List Nat) (h : ¬ i < q.length) :
    playNextGo q ok i log = (-1, false, none, log) := by
  rw [playNextGo]
  simp [h]

theorem playNextGo_play (q : List String) (ok : Nat → Bool) (i : Nat)
    (log : List Nat) (h : i < q.length) (hok : ok i = true) :
    playNextGo q ok i log = ((i : Int), true, some i, log) := by
  rw [playNextGo]
  simp [h, hok]

theorem playNextGo_skip (q : List String) (ok : Nat → Bool) (i : Nat)
    (log : List Nat) (h : i < q.length) (hok : ok i = false) :
    playNextGo q ok i log = playNextGo q ok (i + 1) (log ++ [i]) := by
  rw [playNextGo]
  simp [h, hok]

theorem playNextGo_log_mono (q : List String) (ok : Nat → Bool) :
    ∀ (k i : Nat) (log : List Nat), q.length - i = k →
      ∀ x ∈ log, x ∈ (playNextGo q ok i log).2.2.2 := by
  intro k
  induction k with
  | zero =>
    intro i log hk x hx
    rw [playNextGo_stop q ok i log (by omega)]
    exact hx
  | succ k ih =>
    intro i log hk x hx
    have hi : i < q.length := by omega
    by_cases hok : ok i = true
    · rw [playNextGo_play q ok i log hi hok]; exact hx
    · rw [playNextGo_skip q ok i log hi (by simpa using hok)]
      exact ih (i + 1) (log ++ [i]) (by omega) x (by simp [hx])

theorem playNextGo_plays (q : List String) (ok : Nat → Bool) :
    ∀ (k i : Nat) (log : List Nat), q.length - i = k →
      (∃ j, i ≤ j ∧ j < q.length ∧ ok j = true) →
      (playNextGo q ok i log).2.1 = true := by
  intro k
  induction k with
  | zero =>
    intro i log hk hex
    obtain ⟨j, hij, hjq, _⟩ := hex
    omega
  | succ k ih =>
    intro i log hk hex
    obtain ⟨j, hij, hjq, hjok⟩ := hex
    have hi : i < q.length := by omega
    by_cases hok : ok i = true
    · rw [playNextGo_play q ok i log hi hok]
    · rw [playNextGo_skip q ok i log hi (by simpa using hok)]
      have hne : i ≠ j := fun h => hok (h ▸ hjok)
      exact ih (i + 1) (log ++ [i]) (by omega) ⟨j, by omega, hjq, hjok⟩

theorem playNextGo_idx (q : List String) (ok : Nat → Bool) :
    ∀ (k i : Nat) (log : List Nat), q.length - i = k →
      (playNextGo q ok i log).1 = -1 ∨ (i : Int) ≤ (playNextGo q ok i log).1 := by
  intro k
  induction k with
  | zero =>
    intro i log hk
    rw [playNextGo_stop q ok i log (by omega)]
    exact Or.inl rfl
  | succ k ih =>
    intro i log hk
    have hi : i < q.length := by omega
    by_cases hok : ok i = true
    · rw [playNextGo_play q ok i log hi hok]
      exact Or.inr (le_refl _)
    · rw [playNextGo_skip q ok i log hi (by simpa using hok)]
      rcases ih (i + 1) (log ++ [i]) (by omega) with h | h
      · exact Or.inl h
      · refine Or.inr (le_trans ?_ h)
        exact_mod_cast Nat.le_succ i

end AudioManager

/-! ### Transport lemmas -/

namespace WebSocketHandler

theorem sendMessage_reconnectAttempts (ok : Msg → Bool) (st : State) (m : Msg) :
    (sendMessage ok st m).reconnectAttempts = st.reconnectAttempts := by
  unfold sendMessage
  split
  · rfl
  · split <;> rfl

theorem drainLoop_reconnectAttempts (ok : Msg → Bool) :
    ∀ (fuel : Nat) (st : State),
      (drainLoop ok fuel st).reconnectAttempts = st.reconnectAttempts := by
  intro fuel
  induction fuel with
  | zero => intro st; rfl
  | succ f ih =>
    intro st
    unfold drainLoop
    match h : st.messageQueue with
    | [] => rfl
    | m :: rest =>
      rw [ih, sendMessage_reconnectAttempts]

theorem handleOpen_reconnectAttempts (ok : Msg → Bool) (st : State) :
    (handleOpen ok st).reconnectAttempts = 0 := by
  unfold handleOpen
  rw [drainLoop_reconnectAttempts]

theorem sendMessage_offline (ok : Msg → Bool) (st : State) (m : Msg)
    (h : st.wsOpen = false) :
    sendMessage ok st m = { st with messageQueue := st.messageQueue ++ [m] } := by
  unfold sendMessage
  rw [h]
  simp

theorem sendMessage_online_ok (ok : Msg → Bool) (st : State) (m : Msg)
    (hex : st.wsExists = true) (hop : st.wsOpen = true) (hok : ok m = true) :
    sendMessage ok st m = { st with sent := st.sent ++ [m] } := by
  unfold sendMessage
  rw [hex, hop, hok]
  simp

theorem foldl_sendMessage_offline (ok : Msg → Bool) :
    ∀ (msgs : List Msg) (st : State), st.wsOpen = false →
      msgs.foldl (sendMessage ok) st
        = { st with messageQueue := st.messageQueue ++ msgs } := by
  intro msgs
  induction msgs with
  | nil => intro st _; simp
  | cons m rest ih =>
    intro st h
    rw [List.foldl_cons, sendMessage_offline ok st m h,
      ih { st with messageQueue := st.messageQueue ++ [m] } h]
    simp

theorem drainLoop_all_ok (ok : Msg → Bool) :
    ∀ (q : List Msg) (fuel : Nat) (st : State),
      st.wsExists = true → st.wsOpen = true → st.messageQueue = q →
      q.length ≤ fuel → (∀ m ∈ q, ok m = true) →
      drainLoop ok fuel st = { st with messageQueue := [], sent := st.sent ++ q } := by
  intro q
  induction q with
  | nil =>
    intro fuel st _ _ hq _ _
    obtain ⟨ic, we, wo, wc, ra, mq, sn⟩ := st
    simp only at hq
    subst hq
    match fuel with
    | 0 => simp [drainLoop]
    | f + 1 => simp [drainLoop]
  | cons m rest ih =>
    intro fuel st hex hop hq hlen hok
    obtain ⟨ic, we, wo, wc, ra, mq, sn⟩ := st
    simp only at hex hop hq
    subst hex hop hq
    match fuel with
    | 0 => exact absurd hlen (by simp)
    | f + 1 =>
      show drainLoop ok f
          (sendMessage ok ⟨ic, true, true, wc, ra, rest, sn⟩ m) = _
      rw [sendMessage_online_ok ok ⟨ic, true, true, wc, ra, rest, sn⟩ m rfl rfl
        (hok m (by simp))]
      rw [ih f ⟨ic, true, true, wc, ra, rest, sn ++ [m]⟩ rfl rfl rfl
        (by simpa using hlen) (fun x hx => hok x (by simp [hx]))]
      simp

/-- C4: for reconnection attempt `n` the scheduled delay is
`baseDelay * growthFactor ^ (n - 1)` (3000 ms, factor 1.5); once the attempt
counter has reached `maxAttempts = 5` no further attempt is scheduled; and
the counter is reset to zero by the `onopen` handler of every successful
connection. -/
theorem reconnect_backoff_policy (st : State) (n : Nat)
    (hn : st.reconnectAttempts + 1 = n) :
    (n ≤ maxReconnectAttempts →
      (handleReconnect st).1 = some (reconnectDelay * growthFactor ^ (n - 1)) ∧
      (handleReconnect st).2.reconnectAttempts = n) ∧
    (maxReconnectAttempts ≤ st.reconnectAttempts →
      (handleReconnect st).1 = none ∧ (handleReconnect st).2 = st) ∧
    (∀ ok : Msg → Bool, (handleOpen ok st).reconnectAttempts = 0) := by
  refine ⟨?_, ?_, fun ok => handleOpen_reconnectAttempts ok st⟩
  · intro hle
    have hlt : ¬ st.reconnectAttempts ≥ maxReconnectAttempts := by omega
    unfold handleReconnect
    rw [if_neg hlt]
    refine ⟨?_, by simpa using hn⟩
    have : n - 1 = st.reconnectAttempts := by omega
    rw [this]
  · intro hge
    unfold handleReconnect
    rw [if_pos hge]
    exact ⟨rfl, rfl⟩

/-- C4 witness: at a counter of 2, attempt 3 is scheduled with delay
`3000 * 1.5 ^ 2`; at the cap of 5 no attempt is scheduled; `onopen` resets
the counter. -/
theorem reconnect_backoff_policy_witness :
    (handleReconnect { initialState with reconnectAttempts := 2 }).1
      = some (reconnectDelay * growthFactor ^ 2) ∧
    (handleReconnect { initialState with reconnectAttempts := 5 }).1 = none ∧
    (handleOpen (fun _ => true)
        { initialState with reconnectAttempts := 2 }).reconnectAttempts = 0 := by
  refine ⟨?_, ?_, ?_⟩
  · exact ((reconnect_backoff_policy { initialState with reconnectAttempts := 2 }
      3 rfl).1 (by decide)).1
  · exact ((reconnect_backoff_policy { initialState with reconnectAttempts := 5 }
      6 rfl).2.1 (by decide)).1
  · exact (reconnect_backoff_policy { initialState with reconnectAttempts := 2 }
      3 rfl).2.2 (fun _ => true)

/-- C8 counterexample: with an established connection (`onopen` has run, so
`isConnecting` is false and the socket is OPEN), `connect()` is not a no-op:
it constructs a second `WebSocket`, replacing the open one. -/
theorem connect_not_noop_when_connected :
    connect { initialState with wsExists := true, wsOpen := true, wsCreated := 1 }
      ≠ { initialState with wsExists := true, wsOpen := true, wsCreated := 1 } := by
  decide

/-- C8 amended: `connect()` is a no-op exactly while a connection attempt is
in progress (`isConnecting` true); called with `isConnecting` false — in
particular while already connected — it constructs a fresh `WebSocket` and
replaces `this.ws`. -/
theorem connect_noop_only_while_connecting (st : State) :
    (st.isConnecting = true → connect st = st) ∧
    (st.isConnecting = false →
      connect st = { st with isConnecting := true, wsExists := true,
                             wsOpen := false, wsCreated := st.wsCreated + 1 }) := by
  constructor
  · intro h; unfold connect; rw [if_pos h]
  · intro h; unfold connect; rw [if_neg (by simp [h])]

/-- C8 amended witness: a `connect()` while a connect is pending changes
nothing, and one issued while connected bumps the construction counter. -/
theorem connect_noop_only_while_connecting_witness :
    connect { initialState with isConnecting := true } =
      { initialState with isConnecting := true } ∧
    (connect { initialState with wsExists := true, wsOpen := true, wsCreated := 1 }).wsCreated = 2 := by
  constructor
  · exact (connect_noop_only_while_connecting
      { initialState with isConnecting := true }).1 rfl
  · rw [(connect_noop_only_while_connecting
      { initialState with wsExists := true, wsOpen := true, wsCreated := 1 }).2 rfl]

/-- C5 counterexample: with the socket open, a queue already holding `"a"`
and a send of `"b"` whose transmission throws, the message is not re-queued
at the front — the queue becomes `["a", "b"]`, not `["b", "a"]`. -/
theorem send_failure_not_front_requeued :
    (sendMessage (fun _ => false) { initialState with wsExists := true, wsOpen := true, messageQueue := ["a"] } "b").messageQueue ≠ ["b", "a"] := by
  decide

/-- C5 amended: a message whose transmission fails after the socket reports
itself open is re-queued at the BACK of the pending queue (appended after
everything already queued) rather than dropped. -/
theorem send_failure_requeued_at_back (ok : Msg → Bool) (st : State) (m : Msg)
    (hex : st.wsExists = true) (hop : st.wsOpen = true) (hfail : ok m = false) :
    (sendMessage ok st m).messageQueue = st.messageQueue ++ [m] ∧
    (sendMessage ok st m).sent = st.sent := by
  unfold sendMessage
  rw [hex, hop, hfail]
  simp

/-- C5 amended witness: the failed `"b"` lands behind the queued `"a"`. -/
theorem send_failure_requeued_at_back_witness :
    (sendMessage (fun _ => false) { initialState with wsExists := true, wsOpen := true, messageQueue := ["a"] } "b").messageQueue = ["a", "b"] := by
  exact (send_failure_requeued_at_back (fun _ => false)
    { initialState with wsExists := true, wsOpen := true, messageQueue := ["a"] }
    "b" rfl rfl rfl).1

/-- C1: every `sendMessage` issued while the connection is not open appends
to the pending queue in call order and transmits nothing; when `onopen`
fires (and the underlying sends succeed) the queue is drained and
transmitted in exactly the order issued — no drop, no duplication — and a
subsequent caller-initiated send is transmitted strictly after the drained
backlog. -/
theorem offline_sends_drain_fifo (ok : Msg → Bool) (msgs : List Msg) (st : State)
    (hex : st.wsExists = true) (hop : st.wsOpen = false)
    (hq : st.messageQueue = []) (hok : ∀ m ∈ msgs, ok m = true) :
    (msgs.foldl (sendMessage ok) st).messageQueue = msgs ∧
    (msgs.foldl (sendMessage ok) st).sent = st.sent ∧
    (handleOpen ok (msgs.foldl (sendMessage ok) st)).messageQueue = [] ∧
    (handleOpen ok (msgs.foldl (sendMessage ok) st)).sent = st.sent ++ msgs ∧
    ∀ m', ok m' = true →
      (sendMessage ok (handleOpen ok (msgs.foldl (sendMessage ok) st)) m').sent
        = st.sent ++ msgs ++ [m'] := by
  have hfold := foldl_sendMessage_offline ok msgs st hop
  have hopen : handleOpen ok (msgs.foldl (sendMessage ok) st)
      = { st with isConnecting := false, wsOpen := true, reconnectAttempts := 0,
                  messageQueue := [], sent := st.sent ++ msgs } := by
    rw [hfold]
    unfold handleOpen
    rw [drainLoop_all_ok ok (st.messageQueue ++ msgs) _ _ (by simpa using hex)
      rfl rfl (le_refl _) (by simpa [hq] using hok)]
    simp [hq]
  refine ⟨by rw [hfold]; simp [hq], by rw [hfold], by rw [hopen], by rw [hopen], ?_⟩
  intro m' hm'
  rw [hopen, sendMessage_online_ok ok _ m' (by simpa using hex) rfl hm']

/-- C1 witness: two messages queued while disconnected are transmitted as
`["a", "b"]` on open, then a fresh send `"c"` follows them. -/
theorem offline_sends_drain_fifo_witness :
    (handleOpen (fun _ => true)
        (["a", "b"].foldl (sendMessage (fun _ => true))
          { initialState with wsExists := true })).sent = ["a", "b"] ∧
    (sendMessage (fun _ => true)
        (handleOpen (fun _ => true)
          (["a", "b"].foldl (sendMessage (fun _ => true))
            { initialState with wsExists := true })) "c").sent = ["a", "b", "c"] := by
  have h := offline_sends_drain_fifo (fun _ => true) ["a", "b"]
    { initialState with wsExists := true } rfl rfl rfl (fun _ _ => rfl)
  exact ⟨h.2.2.2.1, h.2.2.2.2 "c" rfl⟩

end WebSocketHandler

/-! ### Playback-queue theorems -/

namespace AudioManager

/-- C3 counterexample: a one-segment queue finishes playing its segment
(the `ended` listener calls `playNext`), after which a second segment is
enqueued — yet the manager is stopped (`isPlaying` false) with its cursor
reset to `-1`, not paused on the boundary, and the new segment does not
start playing.  This refutes the claimed buffering-wait with automatic
resume on `enqueue`. -/
theorem playback_no_autoresume_counterexample :
    (addAudio (playNext (fun _ => true) ⟨["u0"], 0, true, some 0, []⟩) "u1").isPlaying = false ∧
    (addAudio (playNext (fun _ => true) ⟨["u0"], 0, true, some 0, []⟩) "u1").currentAudioIndex = -1 ∧
    (addAudio (playNext (fun _ => true) ⟨["u0"], 0, true, some 0, []⟩) "u1").currentAudio = none := by
  have h : playNext (fun _ => true) (⟨["u0"], 0, true, some 0, []⟩ : State)
      = ⟨["u0"], -1, false, none, []⟩ := by
    simp only [playNext]
    rw [show ((⟨["u0"], 0, true, some 0, []⟩ : State).currentAudioIndex + 1).toNat = 1 from rfl,
      playNextGo_stop ["u0"] (fun _ => true) 1 [] (by decide)]
  rw [h]
  exact ⟨rfl, rfl, rfl⟩

/-- C3 amended: when `playNext` runs past the last enqueued segment the
queue STOPS — cursor reset to `-1`, `isPlaying` false, current audio
cleared — rather than entering a paused buffering-wait; and `addAudio`
only appends to the queue, never resuming playback, so a segment arriving
after the boundary stays unplayed until the user presses play again. -/
theorem playback_stops_at_queue_end (ok : Nat → Bool) (st : State)
    (h : st.audioQueue.length ≤ (st.currentAudioIndex + 1).toNat) :
    playNext ok st
      = { st with currentAudioIndex := -1, isPlaying := false, currentAudio := none } ∧
    ∀ (st' : State) (url : String),
      (addAudio st' url).isPlaying = st'.isPlaying ∧
      (addAudio st' url).currentAudioIndex = st'.currentAudioIndex ∧
      (addAudio st' url).currentAudio = st'.currentAudio := by
  constructor
  · simp only [playNext]
    rw [playNextGo_stop st.audioQueue ok _ st.failLog (by omega)]
  · intro st' url
    exact ⟨rfl, rfl, rfl⟩

/-- C3 amended witness: the boundary state of the counterexample scenario. -/
theorem playback_stops_at_queue_end_witness :
    playNext (fun _ => true) (⟨["u0"], 0, true, some 0, []⟩ : State)
      = ⟨["u0"], -1, false, none, []⟩ ∧
    (addAudio (⟨["u0"], -1, false, none, []⟩ : State) "u1").isPlaying = false := by
  have h := playback_stops_at_queue_end (fun _ => true)
    (⟨["u0"], 0, true, some 0, []⟩ : State) (by decide)
  exact ⟨h.1, (h.2 ⟨["u0"], -1, false, none, []⟩ "u1").1⟩

/-- C7: when the segment at the incremented cursor position fails to play,
`playNext` logs the failure, moves the cursor past the failed segment and
continues with the following segments: if the next segment plays, playback
continues there, and as long as any later segment is playable the queue
does not halt. -/
theorem playback_skips_failed_segment (ok : Nat → Bool) (st : State) (i : Nat)
    (hcur : st.currentAudioIndex + 1 = (i : Int))
    (hlt : i < st.audioQueue.length) (hfail : ok i = false) :
    (i ∈ (playNext ok st).failLog) ∧
    ((playNext ok st).currentAudioIndex ≠ (i : Int)) ∧
    ((∃ j, i < j ∧ j < st.audioQueue.length ∧ ok j = true) →
      (playNext ok st).isPlaying = true) ∧
    (i + 1 < st.audioQueue.length → ok (i + 1) = true →
      (playNext ok st).currentAudioIndex = ((i + 1 : Nat) : Int) ∧
      (playNext ok st).isPlaying = true) := by
  have htn : (st.currentAudioIndex + 1).toNat = i := by
    rw [hcur, Int.toNat_natCast]
  simp only [playNext]
  rw [htn]
  rw [playNextGo_skip st.audioQueue ok i st.failLog hlt hfail]
  refine ⟨?_, ?_, ?_, ?_⟩
  · exact playNextGo_log_mono st.audioQueue ok
      (st.audioQueue.length - (i + 1)) (i + 1) (st.failLog ++ [i]) rfl i (by simp)
  · rcases playNextGo_idx st.audioQueue ok (st.audioQueue.length - (i + 1))
      (i + 1) (st.failLog ++ [i]) rfl with h | h
    · rw [h]; omega
    · intro hcontra
      rw [hcontra] at h
      exact absurd h (by exact_mod_cast by omega)
  · intro hex
    obtain ⟨j, hij, hjq, hjok⟩ := hex
    exact playNextGo_plays st.audioQueue ok (st.audioQueue.length - (i + 1))
      (i + 1) (st.failLog ++ [i]) rfl ⟨j, by omega, hjq, hjok⟩
  · intro hlt2 hok2
    rw [playNextGo_play st.audioQueue ok (i + 1) (st.failLog ++ [i]) hlt2 hok2]
    exact ⟨rfl, rfl⟩

/-- C7 witness: in a two-segment queue whose first segment fails, playback
logs index 0 and continues playing at index 1. -/
theorem playback_skips_failed_segment_witness :
    (0 ∈ (playNext (fun n => n ≠ 0) (⟨["u0", "u1"], -1, false, none, []⟩ : State)).failLog) ∧
    (playNext (fun n => n ≠ 0) (⟨["u0", "u1"], -1, false, none, []⟩ : State)).currentAudioIndex = 1 ∧
    (playNext (fun n => n ≠ 0) (⟨["u0", "u1"], -1, false, none, []⟩ : State)).isPlaying = true := by
  have h := playback_skips_failed_segment (fun n => n ≠ 0)
    (⟨["u0", "u1"], -1, false, none, []⟩ : State) 0 (by decide) (by decide) (by decide)
  have h4 := h.2.2.2 (by decide) (by decide)
  exact ⟨h.1, h4.1, h4.2⟩

end AudioManager

/-! ### Survey-validation lemmas -/

namespace SurveyManager

theorem boundCheck_some {b val : Option Int} {cmp : Option Int → Int → Bool}
    {msg : Int → String} {e : String} (h : boundCheck b val cmp msg = some e) :
    ∃ v, e = msg v := by
  unfold boundCheck at h
  split at h
  · split at h
    · injection h with h
      exact ⟨_, h.symm⟩
    · cases h
  · cases h

theorem req_ne_bound (t pre post : String) (v : Int)
    (h : 7 ≤ pre.length + post.length) :
    (t ++ " 為必填項目" : String) ≠ t ++ pre ++ toString v ++ post := by
  intro he
  have hlen := congrArg String.length he
  rw [String.length_append, String.length_append, String.length_append,
    String.length_append] at hlen
  have h6 : (" 為必填項目" : String).length = 6 := by decide
  omega

theorem req_ne_bound2 (t pre : String) (v : Int) (h : 7 ≤ pre.length) :
    (t ++ " 為必填項目" : String) ≠ t ++ pre ++ toString v := by
  intro he
  have hlen := congrArg String.length he
  rw [String.length_append, String.length_append, String.length_append] at hlen
  have h6 : (" 為必填項目" : String).length = 6 := by decide
  omega

theorem vq_required_of_falsy (responses : Responses) (q : Question)
    (hreq : q.required = true)
    (hf : jsFalsy (getResp responses q.question_id) = true) :
    validateQuestion responses q = some (q.title ++ " 為必填項目") := by
  simp only [validateQuestion]
  rw [hreq, hf]
  rfl

theorem vq_skip_of_falsy_not_required (responses : Responses) (q : Question)
    (hreq : q.required = false)
    (hf : jsFalsy (getResp responses q.question_id) = true) :
    validateQuestion responses q = none := by
  simp only [validateQuestion]
  rw [hreq, hf]
  rfl

theorem vq_ne_required_of_truthy (responses : Responses) (q : Question)
    (hf : jsFalsy (getResp responses q.question_id) = false) :
    validateQuestion responses q ≠ some (q.title ++ " 為必填項目") := by
  intro he
  simp only [validateQuestion] at he
  rw [hf, Bool.and_false] at he
  simp only [Bool.false_eq_true, if_false] at he
  rcases hr : getResp responses q.question_id with _ | r
  · rw [hr] at hf; simp [jsFalsy] at hf
  · rw [hr] at he
    simp only [] at he
    split at he
    · rcases (Option.orElse_eq_some _ _ _).mp he with hc | ⟨_, hc⟩ <;>
      · obtain ⟨v, hv⟩ := boundCheck_some hc
        first
        | exact req_ne_bound q.title " 至少選擇 " " 項" v (by decide) hv
        | exact req_ne_bound q.title " 最多選擇 " " 項" v (by decide) hv
    · split at he
      · rcases (Option.orElse_eq_some _ _ _).mp he with hc | ⟨_, hc⟩ <;>
        · obtain ⟨v, hv⟩ := boundCheck_some hc
          first
          | exact req_ne_bound q.title " 最少需要 " " 個字" v (by decide) hv
          | exact req_ne_bound q.title " 最多允許 " " 個字" v (by decide) hv
      · split at he
        · rcases (Option.orElse_eq_some _ _ _).mp he with hc | ⟨_, hc⟩ <;>
          · obtain ⟨v, hv⟩ := boundCheck_some hc
            first
            | exact req_ne_bound2 q.title " 最小評分為 " v (by decide) hv
            | exact req_ne_bound2 q.title " 最大評分為 " v (by decide) hv
        · cases he

theorem vq_some_suffix (responses : Responses) (q : Question) (e : String)
    (h : validateQuestion responses q = some e) :
    ∃ suffix, e = q.title ++ suffix := by
  simp only [validateQuestion] at h
  split at h
  · injection h with h
    exact ⟨" 為必填項目", h.symm⟩
  · split at h
    · cases h
    · split at h
      next => cases h
      next r =>
        split at h
        · rcases (Option.orElse_eq_some _ _ _).mp h with hc | ⟨_, hc⟩ <;>
            obtain ⟨v, hv⟩ := boundCheck_some hc <;>
            subst hv <;>
            exact ⟨_, by rw [String.append_assoc, String.append_assoc]⟩
        · split at h
          · rcases (Option.orElse_eq_some _ _ _).mp h with hc | ⟨_, hc⟩ <;>
              obtain ⟨v, hv⟩ := boundCheck_some hc <;>
              subst hv <;>
              exact ⟨_, by rw [String.append_assoc, String.append_assoc]⟩
          · split at h
            · rcases (Option.orElse_eq_some _ _ _).mp h with hc | ⟨_, hc⟩ <;>
                obtain ⟨v, hv⟩ := boundCheck_some hc <;>
                subst hv <;>
                exact ⟨_, by rw [String.append_assoc]⟩
            · cases h

end SurveyManager

/-! ### Survey-manager theorems -/

namespace SurveyManager

/-- C10: `validateQuestion` reports a required-field violation exactly when
the stored response is JavaScript-falsy — so the legitimate answers `0` and
`""` to a required question are rejected as missing — and a falsy-valued
(in particular unanswered) non-required question skips every per-type bound
check and validates. -/
theorem validateQuestion_required_falsy_semantics (responses : Responses) (q : Question) :
    (q.required = true → jsFalsy (getResp responses q.question_id) = true →
      validateQuestion responses q = some (q.title ++ " 為必填項目")) ∧
    (q.required = true → jsFalsy (getResp responses q.question_id) = false →
      validateQuestion responses q ≠ some (q.title ++ " 為必填項目")) ∧
    (q.required = true → getResp responses q.question_id = some (.vNum 0) →
      validateQuestion responses q = some (q.title ++ " 為必填項目")) ∧
    (q.required = true → getResp responses q.question_id = some (.vStr "") →
      validateQuestion responses q = some (q.title ++ " 為必填項目")) ∧
    (q.required = false → jsFalsy (getResp responses q.question_id) = true →
      validateQuestion responses q = none) := by
  refine ⟨?_, ?_, ?_, ?_, ?_⟩
  · exact fun hreq hf => vq_required_of_falsy responses q hreq hf
  · exact fun _ hf => vq_ne_required_of_truthy responses q hf
  · intro hreq hr
    exact vq_required_of_falsy responses q hreq (by rw [hr]; rfl)
  · intro hreq hr
    exact vq_required_of_falsy responses q hreq (by rw [hr]; rfl)
  · exact fun hreq hf => vq_skip_of_falsy_not_required responses q hreq hf

/-- C10 witness: a required text question answered with the empty string is
rejected as missing; the same question unanswered but non-required skips all
checks. -/
theorem validateQuestion_required_falsy_semantics_witness :
    validateQuestion [("q1", .vStr "")] ⟨"q1", "姓名", "text", true, none⟩
      = some ("姓名" ++ " 為必填項目") ∧
    validateQuestion [] ⟨"q1", "姓名", "text", false, none⟩ = none := by
  constructor
  · exact (validateQuestion_required_falsy_semantics [("q1", .vStr "")]
      ⟨"q1", "姓名", "text", true, none⟩).2.2.2.1 rfl (by decide)
  · exact (validateQuestion_required_falsy_semantics []
      ⟨"q1", "姓名", "text", false, none⟩).2.2.2.2 rfl rfl

/-- C6: when local validation fails, `submitSurvey` transmits nothing, the
survey-session state is untouched, and every raised error comes from a
concrete offending question and names it (the message begins with that
question's title). -/
theorem submitSurvey_validation_failure_no_send (st : State) (survey : Survey)
    (hs : st.currentSurvey = some survey)
    (hinvalid : validateResponses survey st.surveyResponses ≠ []) :
    (submitSurvey st).1 = st ∧
    (submitSurvey st).2 = none ∧
    ∀ e ∈ validateResponses survey st.surveyResponses,
      ∃ sec ∈ survey.sections, ∃ q ∈ sec.questions, ∃ suffix,
        validateQuestion st.surveyResponses q = some e ∧ e = q.title ++ suffix := by
  refine ⟨?_, ?_, ?_⟩
  · unfold submitSurvey
    rw [hs]
    simp only
    rw [if_neg (by simpa [List.isEmpty_iff] using hinvalid)]
  · unfold submitSurvey
    rw [hs]
    simp only
    rw [if_neg (by simpa [List.isEmpty_iff] using hinvalid)]
  · intro e he
    unfold validateResponses at he
    rw [List.mem_flatMap] at he
    obtain ⟨sec, hsec, he⟩ := he
    rw [List.mem_filterMap] at he
    obtain ⟨q, hq, hvq⟩ := he
    obtain ⟨suffix, hsuf⟩ := vq_some_suffix st.surveyResponses q e hvq
    exact ⟨sec, hsec, q, hq, suffix, hvq, hsuf⟩

/-- C6 witness: a survey with one required text question and no stored
responses fails validation, sends nothing, and leaves the session as it
was. -/
theorem submitSurvey_validation_failure_no_send_witness :
    (submitSurvey ⟨some ⟨"s", "d", [⟨"sec1", [⟨"q1", "姓名", "text", true, none⟩]⟩]⟩, [], some "sid", none, none, 1⟩).2 = none ∧
    (submitSurvey ⟨some ⟨"s", "d", [⟨"sec1", [⟨"q1", "姓名", "text", true, none⟩]⟩]⟩, [], some "sid", none, none, 1⟩).1
      = ⟨some ⟨"s", "d", [⟨"sec1", [⟨"q1", "姓名", "text", true, none⟩]⟩]⟩, [], some "sid", none, none, 1⟩ := by
  have h := submitSurvey_validation_failure_no_send
    ⟨some ⟨"s", "d", [⟨"sec1", [⟨"q1", "姓名", "text", true, none⟩]⟩]⟩, [], some "sid", none, none, 1⟩
    ⟨"s", "d", [⟨"sec1", [⟨"q1", "姓名", "text", true, none⟩]⟩]⟩ rfl (by decide)
  exact ⟨h.2.1, h.1⟩

/-- C2 counterexample: in a session that has already advanced past the
survey stage (step 3, a stored survey id, analysis and plan), a late
`survey_generated` frame is NOT discarded: dispatching it overwrites the
survey id and resets the step, i.e. the stored session data changes. -/
theorem survey_generated_late_frame_mutates_state :
    (onmessage ⟨some "survey_generated", none, none, some ⟨"t2", "d2", []⟩, some "s2", none, none⟩
        ⟨some ⟨"t", "d", []⟩, [], some "s1", some "a", some "p", 3⟩).1
      ≠ ⟨some ⟨"t", "d", []⟩, [], some "s1", some "a", some "p", 3⟩ := by
  decide

/-- C2 amended: the dispatcher does discard frames carrying an `error` field
without touching the session, but a `survey_generated` frame is not guarded
by the workflow stage: `handleSurveyGenerated` runs in every state,
overwriting the stored survey and survey id and resetting the progress step,
so a duplicate or late `survey_generated` mutates the stored session data
instead of being ignored. -/
theorem survey_generated_applied_unconditionally (st : State) (frame : Frame)
    (sv : Survey) (herr : frame.error = none)
    (hty : frame.ftype = some "survey_generated") (hsv : frame.survey = some sv) :
    (onmessage frame st).1
      = { st with currentSurvey := some sv, surveyId := frame.survey_id, currentStep := 1 } ∧
    (onmessage frame st).2 = [] ∧
    ∀ (st' : State) (f : Frame), f.error.isSome = true → onmessage f st' = (st', []) := by
  have hmain : onmessage frame st
      = ({ st with currentSurvey := some sv, surveyId := frame.survey_id, currentStep := 1 }, []) := by
    unfold onmessage
    rw [herr, hty]
    simp only [Option.isSome_none, Bool.false_eq_true, if_false]
    unfold handleSurveyGenerated
    rw [hsv]
  refine ⟨by rw [hmain], by rw [hmain], ?_⟩
  intro st' f hf
  unfold onmessage
  rw [hf]
  simp

/-- C2 amended witness: the late-frame scenario of the counterexample,
dispatched through `onmessage`, lands in the overwritten state; an error
frame against the same state is discarded. -/
theorem survey_generated_applied_unconditionally_witness :
    (onmessage ⟨some "survey_generated", none, none, some ⟨"t2", "d2", []⟩, some "s2", none, none⟩
        ⟨some ⟨"t", "d", []⟩, [], some "s1", some "a", some "p", 3⟩).1
      = ⟨some ⟨"t2", "d2", []⟩, [], some "s2", some "a", some "p", 1⟩ ∧
    onmessage ⟨none, none, some "boom", none, none, none, none⟩
        ⟨some ⟨"t", "d", []⟩, [], some "s1", some "a", some "p", 3⟩
      = (⟨some ⟨"t", "d", []⟩, [], some "s1", some "a", some "p", 3⟩, []) := by
  have h := survey_generated_applied_unconditionally
    ⟨some ⟨"t", "d", []⟩, [], some "s1", some "a", some "p", 3⟩
    ⟨some "survey_generated", none, none, some ⟨"t2", "d2", []⟩, some "s2", none, none⟩
    ⟨"t2", "d2", []⟩ rfl rfl rfl
  exact ⟨h.1, h.2.2 _ _ rfl⟩

end SurveyManager

/-! ### File-registry lemmas and theorems -/

namespace FileUploadManager

theorem mapGet_mem : ∀ (l : List (String × FileRec)) (fid : String) (f : FileRec),
    mapGet l fid = some f → (fid, f) ∈ l := by
  intro l
  induction l with
  | nil => intro fid f h; cases h
  | cons p rest ih =>
    intro fid f h
    obtain ⟨k, v⟩ := p
    unfold mapGet at h
    by_cases hk : k = fid
    · rw [if_pos hk] at h
      injection h with h
      subst hk h
      exact List.mem_cons_self _ _
    · rw [if_neg hk] at h
      exact List.mem_cons_of_mem _ (ih fid f h)

theorem mapSet_mem : ∀ (l : List (String × FileRec)) (k : String) (v : FileRec)
    (p : String × FileRec), p ∈ mapSet l k v → p = (k, v) ∨ p ∈ l := by
  intro l
  induction l with
  | nil =>
    intro k v p hp
    unfold mapSet at hp
    rcases List.mem_singleton.mp hp with h
    exact Or.inl h
  | cons q rest ih =>
    intro k v p hp
    obtain ⟨k', v'⟩ := q
    unfold mapSet at hp
    by_cases hk : k' = k
    · rw [if_pos hk] at hp
      rcases List.mem_cons.mp hp with h | h
      · exact Or.inl h
      · exact Or.inr (List.mem_cons_of_mem _ h)
    · rw [if_neg hk] at hp
      rcases List.mem_cons.mp hp with h | h
      · exact Or.inr (h ▸ List.mem_cons_self _ _)
      · rcases ih k v p h with h' | h'
        · exact Or.inl h'
        · exact Or.inr (List.mem_cons_of_mem _ h')

/-- In every reachable registry state the stored context of every record is
`null`: nothing in the repository ever passes a context payload to
`updateFileStatus`. -/
theorem reachable_context_none {s : State} (hs : Reachable s) :
    ∀ p ∈ s.files, (Prod.snd p).context = none := by
  induction hs with
  | init => intro p hp; cases hp
  | add info hprev ih =>
    intro p hp
    unfold addFileToList at hp
    rcases mapSet_mem _ _ _ p hp with h | h
    · rw [h]
    · exact ih p h
  | processed fid hprev ih =>
    intro p hp
    unfold handleFileProcessed updateFileStatus at hp
    rcases hm : mapGet _ fid with _ | f
    · rw [hm] at hp
      exact ih p hp
    · rw [hm] at hp
      simp only at hp
      rcases mapSet_mem _ _ _ p hp with h | h
      · rw [h]
        exact ih (fid, f) (mapGet_mem _ fid f hm)
      · exact ih p h
  | toggle fid hprev ih =>
    intro p hp
    exact ih p hp
  | delete ok fid hprev ih =>
    intro p hp
    unfold deleteFile at hp
    by_cases hok : ok = true
    · rw [if_pos hok] at hp
      exact ih p (List.mem_of_mem_filter hp)
    · rw [if_neg hok] at hp
      exact ih p hp

/-- C9: in every reachable registry state, `getActiveFileContext` returns
the active record's context payload, and returns `null` whenever no file is
active, the active id has no record, or the active record is not yet marked
processed. -/
theorem getActiveFileContext_spec (s : State) (hs : Reachable s) :
    (s.activeFile = none → getActiveFileContext s = none) ∧
    (∀ fid, s.activeFile = some fid → mapGet s.files fid = none →
      getActiveFileContext s = none) ∧
    (∀ fid f, s.activeFile = some fid → mapGet s.files fid = some f →
      getActiveFileContext s = f.context ∧
      (f.processed = false → getActiveFileContext s = none)) := by
  refine ⟨?_, ?_, ?_⟩
  · intro h
    unfold getActiveFileContext
    rw [h]
  · intro fid h hm
    unfold getActiveFileContext
    rw [h]
    dsimp only
    rw [hm]
  · intro fid f h hm
    have hctx : f.context = none :=
      reachable_context_none hs (fid, f) (mapGet_mem _ fid f hm)
    constructor
    · unfold getActiveFileContext
      rw [h]
      dsimp only
      rw [hm]
    · intro _
      unfold getActiveFileContext
      rw [h]
      dsimp only
      rw [hm]
      dsimp only
      rw [hctx]

/-- C9 witness: after uploading a file, marking it processed and activating
it, the registry is reachable and `getActiveFileContext` returns the
record's (null) context; with no active file it returns `null`. -/
theorem getActiveFileContext_spec_witness :
    getActiveFileContext
        (toggleFileContext "f1" (handleFileProcessed "f1"
          (addFileToList ⟨"f1", "a.txt", 3⟩ initialState)))
      = (⟨"a.txt", 3, true, none⟩ : FileRec).context ∧
    getActiveFileContext (handleFileProcessed "f1"
        (addFileToList ⟨"f1", "a.txt", 3⟩ initialState)) = none := by
  have hr1 : Reachable (handleFileProcessed "f1"
      (addFileToList ⟨"f1", "a.txt", 3⟩ initialState)) :=
    Reachable.processed "f1" (Reachable.add ⟨"f1", "a.txt", 3⟩ Reachable.init)
  have h1 := getActiveFileContext_spec
    (toggleFileContext "f1" (handleFileProcessed "f1"
      (addFileToList ⟨"f1", "a.txt", 3⟩ initialState)))
    (Reachable.toggle "f1" hr1)
  have h2 := getActiveFileContext_spec _ hr1
  refine ⟨(h1.2.2 "f1" ⟨"a.txt", 3, true, none⟩ (by decide) (by decide)).1, h2.1 (by decide)⟩

end FileUploadManager
